import Mathlib

set_option maxHeartbeats 1000000

/-!
Verification of the autd3 build-orchestration script (`build.py`) against its
design description. The script is shallowly embedded: each Python function used
by a verified property is translated into an executable Lean definition below,
with the source line numbers noted in the doc comments. Process-wide mutable
state (environment variables, working directory) is passed explicitly; fatal
`sys.exit` paths and unassigned attributes are made explicit constructors.
-/

/-- build.py 145-146: `Config.is_windows`, a comparison of `platform.system()`
against the literal string. -/
def is_windows (p : String) : Bool := p == "Windows"

/-- build.py 148-149: `Config.is_macos`; `platform.system()` reports macOS as
"Darwin". -/
def is_macos (p : String) : Bool := p == "Darwin"

/-- build.py 151-152: `Config.is_linux`. -/
def is_linux (p : String) : Bool := p == "Linux"

/-- build.py 82-86: the `Config` object once `__init__` has completed and the
`target` attribute was assigned (`Optional[str]`). -/
structure Config where
  platform : String
  release : Bool
  target : Option String
  no_examples : Bool
deriving DecidableEq

/-- Possible outcomes of `Config.__init__` (build.py 88-116). `fatalPlatform`
and `fatalArch` are the `err(...); sys.exit(-1)` paths. `okTargetUnset` records
the path where `args.arch` is not `None` but the platform is neither Linux nor
Windows (macOS): neither `match` arm runs and the `else` on line 115 is skipped,
so `self.target` is never assigned at all (a later attribute access would raise
`AttributeError`). -/
inductive InitResult where
  | fatalPlatform (p : String)
  | fatalArch (a : String)
  | ok (c : Config)
  | okTargetUnset (platform : String) (release : Bool) (no_examples : Bool)
deriving DecidableEq

/-- build.py 88-116: `Config.__init__`. `arch = none` models both an absent
`arch` attribute (`hasattr` false) and `args.arch is None`; the two behave
identically on line 98. `release` and `no_examples` are the values of
`hasattr(args, ...) and args....`. -/
def configInit (plat : String) (release : Bool) (no_examples : Bool)
    (arch : Option String) : InitResult :=
  if !(is_windows plat) && !(is_macos plat) && !(is_linux plat) then
    InitResult.fatalPlatform plat
  else
    match arch with
    | some a =>
      if is_linux plat then
        if a = "arm32" then
          InitResult.ok ⟨plat, release, some "armv7-unknown-linux-gnueabihf", no_examples⟩
        else if a = "aarch64" then
          InitResult.ok ⟨plat, release, some "aarch64-unknown-linux-gnu", no_examples⟩
        else InitResult.fatalArch a
      else if is_windows plat then
        if a = "aarch64" then
          InitResult.ok ⟨plat, release, some "aarch64-pc-windows-msvc", no_examples⟩
        else InitResult.fatalArch a
      else InitResult.okTargetUnset plat release no_examples
    | none => InitResult.ok ⟨plat, release, none, no_examples⟩

/-- build.py 118-134: `Config.cargo_command_base`. Token order as appended by
the source: program, subcommand tokens, `--target <triple>` when a target is
set, then `--release` when `self.release`. -/
def cargo_command_base (c : Config) (subcommands : List String) : List String :=
  let command :=
    match c.target with
    | none => "cargo" :: subcommands
    | some t =>
      (if is_linux c.platform then "cross" :: subcommands else "cargo" :: subcommands)
        ++ ["--target", t]
  if c.release then command ++ ["--release"] else command

/-- build.py 138-140: the feature string assembled inside `cargo_build_command`:
the baseline feature `"remote"`, then `" " + additional_features` when extra
features were passed. Plain string concatenation, no de-duplication. -/
def buildFeatures (additional_features : Option String) : String :=
  match additional_features with
  | none => "remote"
  | some f => "remote" ++ " " ++ f

/-- build.py 136-143: `Config.cargo_build_command`. -/
def cargo_build_command (c : Config) (additional_features : Option String) : List String :=
  cargo_command_base c ["build"] ++ ["--features", buildFeatures additional_features]

/-- Splitting a character list at every occurrence of a separator character,
the token view of Python's `str.split(" ")` / cargo's feature-string parsing
(adjacent separators yield empty tokens, as in Python). -/
def splitCh (c : Char) : List Char → List (List Char)
  | [] => [[]]
  | a :: as =>
    match splitCh c as with
    | [] => [[]]
    | h :: t => if a = c then [] :: h :: t else (a :: h) :: t

/-- The tokens of the feature string assembled by `cargo_build_command`
(build.py 138-140), as cargo reads them: the string split on spaces. -/
def featTokens (extra : Option String) : List (List Char) :=
  splitCh ' ' (buildFeatures extra).data

/-- build.py 25-26: `err` prints with a red severity prefix (`\033` = ESC). -/
def errMsg (msg : String) : String := "\x1b[91mERR \x1b[0m: " ++ msg

/-- build.py 33-34: `info` prints with a green severity prefix. -/
def infoMsg (msg : String) : String := "\x1b[92mINFO\x1b[0m: " ++ msg

/-- Python's `repr` of a list of strings, as an f-string interpolates it
(build.py 257: `f"Available examples: {examples}"`). -/
def pyStrListRepr (xs : List String) : String :=
  "[" ++ String.intercalate ", " (xs.map (fun s => "'" ++ s ++ "'")) ++ "]"

/-- build.py 245-253: the fixed allow-list of example targets in `rust_run`. -/
def examplesAllowList : List String :=
  ["soem", "remote_soem", "twincat", "remote_twincat", "simulator",
   "lightweight", "lightweight_server"]

/-- build.py 260-275: the name-to-feature lookup `match args.target` in
`rust_run` (note `lightweight_server` maps to the dash-spelled feature). -/
def run_features (t : String) : Option String :=
  if t = "soem" then some "soem"
  else if t = "remote_soem" then some "remote_soem"
  else if t = "twincat" then some "twincat"
  else if t = "remote_twincat" then some "remote_twincat"
  else if t = "simulator" then some "simulator"
  else if t = "lightweight" then some "lightweight"
  else if t = "lightweight_server" then some "lightweight-server"
  else none

/-- Arguments of the `run` verb (build.py 420-423): a positional target and
`--release`. -/
structure RunArgs where
  target : String
  release : Bool

/-- What a verb handler did: messages printed, commands spawned, the Python
return value of the handler function, and whether an exception escaped it
(`check_returncode` raising on a nonzero subprocess exit). -/
structure HandlerResult where
  printed : List String
  spawned : List (List String)
  ret : Option Int
  raised : Bool
deriving DecidableEq

/-- build.py 244-288: `rust_run`. On an unknown target it prints the formatted
error and the allow-list and returns `-1` without spawning anything; otherwise
it spawns one `cargo run` command inside a `working_dir("./examples")` scope
(the directory change is irrelevant to the recorded result). `runExit` gives
each spawned command's exit code. -/
def rust_run (args : RunArgs) (runExit : List String → Int) : HandlerResult :=
  if args.target ∉ examplesAllowList then
    { printed := [errMsg ("example \"" ++ args.target ++ "\" is not found."),
                  infoMsg ("Available examples: " ++ pyStrListRepr examplesAllowList)],
      spawned := [], ret := some (-1), raised := false }
  else
    let commands := ["cargo", "run"]
      ++ (if args.release then ["--release"] else [])
      ++ ["--bin", args.target, "--no-default-features"]
      ++ (match run_features args.target with
          | some f => ["--features", f]
          | none => [])
    { printed := [], spawned := [commands], ret := none,
      raised := runExit commands != 0 }

/-- build.py 453-455: `__main__` runs `args.handler(args)` and discards the
handler's return value; the interpreter then exits 0 unless an exception
escaped the handler (a nonzero exit is modelled as 1). -/
def mainExitCode (h : HandlerResult) : Int := if h.raised then 1 else 0

/-- The process environment, `os.environ`, as a map from variable names to
values. -/
def Env : Type := String → Option String

/-- `os.environ[k] = v`. -/
def envSet (e : Env) (k v : String) : Env :=
  fun k' => if k' = k then some v else e k'

/-- `os.environ.clear()`. -/
def envClear : Env := fun _ => none

/-- `base.update(snapshot)`-style dict update: every key present in `snapshot`
wins, all other keys keep their value in `base`. -/
def envUpdate (base snapshot : Env) : Env :=
  fun k => match snapshot k with
    | some v => some v
    | none => base k

/-- build.py 73-74: the loop setting each keyword override in order. -/
def envOverrides (kwargs : List (String × String)) (e : Env) : Env :=
  kwargs.foldl (fun acc kv => envSet acc kv.1 kv.2) e

/-- The process-wide mutable state a handler can touch: the environment
variables and the working directory. -/
structure ProcState where
  env : Env
  cwd : String

/-- build.py 70-79: the `with_env` context manager: snapshot `os.environ` by
copy, set the overrides, run the body — which may mutate the state further and
may raise — then in `finally` run `os.environ.clear(); os.environ.update(env)`,
restoring the snapshot on every exit path; the body's outcome (value or
exception) propagates unchanged. -/
def with_env {α : Type} (kwargs : List (String × String))
    (body : ProcState → Except String α × ProcState) (s0 : ProcState) :
    Except String α × ProcState :=
  let saved := s0.env
  let rs := body { s0 with env := envOverrides kwargs s0.env }
  (rs.1, { rs.2 with env := envUpdate envClear saved })

/-- build.py 60-67: the `working_dir` context manager: save `os.getcwd()`,
`os.chdir(path)`, run the body, and in `finally` `os.chdir` back to the saved
directory on every exit path. Path resolution is abstracted: inside the scope
the working directory is the requested path. -/
def working_dir {α : Type} (path : String)
    (body : ProcState → Except String α × ProcState) (s0 : ProcState) :
    Except String α × ProcState :=
  let saved := s0.cwd
  let rs := body { s0 with cwd := path }
  (rs.1, { rs.2 with cwd := saved })

/-- build.py 302-309: the coverage build command (its index 1 is later swapped
to "test" for the second invocation). -/
def covBuildCommand : List String :=
  ["cargo", "build", "--features", "remote test-utilities test", "--workspace"]

/-- build.py 314-348: the grcov report invocation with its fixed filter
tables. -/
def grcovCommand (format : String) : List String :=
  ["grcov", ".", "-s", ".", "--binary-path", "./target/debug", "--llvm",
   "--branch", "--ignore-not-existing", "-o", "./coverage", "-t", format,
   "--excl-line",
   "^\\s*((debug_)?assert(_eq|_ne)?!|#\\[derive\\()|GRCOV_EXCL_LINE|unreachable!|unimplemented!|tracing::|#\\[derivative",
   "--ignore", "autd3-derive/**/*",
   "--ignore", "autd3-link-*/**/*",
   "--ignore", "autd3-protobuf/src/pb/*",
   "--ignore", "autd3-protobuf/src/pb/**/*",
   "--ignore", "**/soem_bindings/*",
   "--ignore", "*/build.rs",
   "--ignore", "examples/**/*.rs",
   "--excl-start", "GRCOV_EXCL_START",
   "--excl-stop", "GRCOV_EXCL_STOP"]

/-- build.py 296-350: `rust_coverage`: a `working_dir` scope around a
`with_env` scope with the instrumentation overrides; inside, three sequential
invocations (build, the same tokens with index 1 swapped to `test`, then
grcov), aborting on the first failure. `runner` is `subprocess.run` +
`check_returncode`: it receives the command and the state and yields an
outcome and the state afterwards. The final `rm_glob_f("**/*.profraw")`
touches only the filesystem, not the environment or working directory. -/
def rust_coverage (format : String)
    (runner : List String → ProcState → Except String Unit × ProcState)
    (s0 : ProcState) : Except String Unit × ProcState :=
  working_dir "." (fun s =>
    with_env [("RUSTFLAGS", "-C instrument-coverage"),
              ("LLVM_PROFILE_FILE", "%m-%p.profraw")] (fun s1 =>
      let r1 := runner covBuildCommand s1
      match r1.1 with
      | Except.error e => (Except.error e, r1.2)
      | Except.ok _ =>
        let r2 := runner (covBuildCommand.set 1 "test") r1.2
        match r2.1 with
        | Except.error e => (Except.error e, r2.2)
        | Except.ok _ => runner (grcovCommand format) r2.2) s) s0

/-- build.py 157-167: `Config.is_pcap_available`: unconditionally true off
Windows; on Windows all four probed dll paths must exist. `fileExists` is
`os.path.isfile`. -/
def is_pcap_available (c : Config) (fileExists : String → Bool) : Bool :=
  if !(is_windows c.platform) then true
  else
    (fileExists "C:\\Windows\\System32\\wpcap.dll"
      && fileExists "C:\\Windows\\System32\\Npcap\\wpcap.dll")
    && (fileExists "C:\\Windows\\System32\\Packet.dll"
      && fileExists "C:\\Windows\\System32\\Npcap\\Packet.dll")

/-- Arguments of the `test` verb (build.py 413-417): `--release`, `--features`
and `--miri`; the parser defines no `--arch` and no `--no-examples`. -/
structure TestArgs where
  release : Bool
  features : Option String
  miri : Bool

/-- build.py 221-223: the feature string of `rust_test`: always the literal
`"test-utilities remote"`, then `" " + args.features` when extra features were
passed — the baseline `remote` is present in both the miri and non-miri
branch. -/
def testFeatures (extra : Option String) : String :=
  match extra with
  | none => "test-utilities remote"
  | some f => "test-utilities remote" ++ " " ++ f

/-- build.py 215: the value `with_env(MIRIFLAGS=...)` sets around the whole
body of `rust_test`. -/
def MIRIFLAGS_VALUE : String := "-Zmiri-disable-isolation"

/-- The single spawned test invocation: its token sequence and the environment
in effect when `subprocess.run` is called (inside the `with_env` scope). -/
structure TestInvocation where
  command : List String
  env : Env

/-- build.py 211-241: `rust_test`. `Config(args)` aborts fatally on an
unsupported platform (`none`); the `test` parser has no `arch` attribute, so
the config's target is always `None` and `no_examples` false. Both branches sit
inside `with_env(MIRIFLAGS="-Zmiri-disable-isolation")`. Token order as
appended: base command (miri or default runner), `--features`, the feature
string, `--workspace`, `--exclude examples`, then `--exclude autd3-link-soem`
when the pcap probe fails, then the three miri-only exclusions. -/
def rust_test (plat : String) (args : TestArgs) (fileExists : String → Bool)
    (env0 : Env) : Option TestInvocation :=
  match configInit plat args.release false none with
  | InitResult.ok c =>
    let base :=
      if args.miri then cargo_command_base c ["+nightly", "miri", "nextest", "run"]
      else cargo_command_base c ["nextest", "run"]
    let cmd1 := base ++ ["--features", testFeatures args.features,
                         "--workspace", "--exclude", "examples"]
    let cmd2 := if !(is_pcap_available c fileExists) then
        cmd1 ++ ["--exclude", "autd3-link-soem"]
      else cmd1
    let cmd3 := if args.miri then
        cmd2 ++ ["--exclude", "autd3", "--exclude", "autd3-derive",
                 "--exclude", "autd3-modulation-audio-file"]
      else cmd2
    some ⟨cmd3, envOverrides [("MIRIFLAGS", MIRIFLAGS_VALUE)] env0⟩
  | _ => none

/-- Substring occurrence over character lists: `pat` occurs at some position
of `l`. -/
def hasSubstr (pat : List Char) : List Char → Bool
  | [] => pat.isEmpty
  | c :: t => pat.isPrefixOf (c :: t) || hasSubstr pat t

/-- Python's substring test `pat in s`. -/
def containsTok (s pat : String) : Bool := hasSubstr pat.data s.data

/-- Modelled from the spec: the `util glob_unsafe` verb (the unsafe-code scan)
is absent from src/build.py; §4.4 of the design: the scan "excludes files
under test directories and a fixed set of known-unsafe-by-design package
directories". The fixed set is a parameter (`riskOkDirs`) since the design
does not name its members; a file is excluded when its path lies under a test
directory or under one of those package directories. -/
def pathExcluded (riskOkDirs : List String) (path : String) : Bool :=
  containsTok path "/tests/"
    || riskOkDirs.any (fun d => (d ++ "/").data.isPrefixOf path.data)

/-- Modelled from the spec: a line carries a raw risk marker when it contains
the `unsafe` keyword and lacks a documented suppression comment (a `SAFETY`
comment on the same line). -/
def lineFlagged (l : String) : Bool :=
  containsTok l "unsafe" && !(containsTok l "SAFETY")

/-- Modelled from the spec: a file is flagged when any of its lines carries a
raw risk marker on a line lacking a suppression comment. -/
def fileFlagged (lines : List String) : Bool := lines.any lineFlagged

/-- Modelled from the spec: the scan enumerates source files (`files` pairs
each path with its lines), drops excluded paths, and keeps the path of every
remaining file that is flagged, in enumeration order. -/
def riskScan (riskOkDirs : List String)
    (files : List (String × List String)) : List String :=
  (files.filter
    (fun f => !(pathExcluded riskOkDirs f.1) && fileFlagged f.2)).map Prod.fst

/-- Modelled from the spec: the fixed output file receives one flagged path
per line. -/
def riskScanOutput (riskOkDirs : List String)
    (files : List (String × List String)) : String :=
  String.intercalate "\n" (riskScan riskOkDirs files)

/-- The 11-character literal `version = "` that both upver regexes contain
(the key, the spaces around `=`, and the opening quote of the value). -/
def VERKEY : List Char := ['v', 'e', 'r', 's', 'i', 'o', 'n', ' ', '=', ' ', '"']

/-- `VERKEY` without its final quote: the 10-character literal `version = `. -/
def VERKEYBODY : List Char := ['v', 'e', 'r', 's', 'i', 'o', 'n', ' ', '=', ' ']

/-- The 5-character literal `autd3` anchoring the dependency regex of
build.py 367. -/
def AUTD3 : List Char := ['a', 'u', 't', 'd', '3']

/-- Split at the first occurrence of `c`: `some (pre, post)` with
`l = pre ++ c :: post` and `c ∉ pre` — the semantics of the non-greedy group
`(.*?)` followed by the literal `c` ( `.` does not match a newline, and these
lines contain none). -/
def splitFirst (c : Char) : List Char → Option (List Char × List Char)
  | [] => none
  | a :: as =>
    if a = c then some ([], as)
    else
      match splitFirst c as with
      | some pr => some (a :: pr.1, pr.2)
      | none => none

/-- A match of `version = "(.*?)"` anchored at the start of `l`, returning the
line with the version group replaced: the engine consumes the literal
`version = "`, the shortest character run up to the next quote, and that
quote; the replacement writes the literal, the target version, the closing
quote, and the untouched tail. `none` when the pattern does not match at
position 0. -/
def tryMatch (v l : List Char) : Option (List Char) :=
  if VERKEY.isPrefixOf l then
    match splitFirst '"' (l.drop VERKEY.length) with
    | some pr => some (VERKEY ++ v ++ '"' :: pr.2)
    | none => none
  else none

/-- build.py 360-365: the substitution `^version = "(.*?)"` → `version = "v"`
(MULTILINE) on one line: the `^` anchor admits at most one match per line, at
column 0. -/
def sub1Line (v l : List Char) : List Char :=
  match tryMatch v l with
  | some r => r
  | none => l

/-- The backtracking search for `(.*)version = "(.*?)"` within the portion of
the line after the `autd3` anchor: the greedy group `(.*)` prefers the longest
prefix, i.e. the rightmost position at which the remaining pattern still
matches, so the recursion first tries to match further right and only then at
the current position. `some r` is the portion rewritten in place. -/
def sub2Core (v : List Char) : List Char → Option (List Char)
  | [] => none
  | c :: cs =>
    match sub2Core v cs with
    | some r => some (c :: r)
    | none => tryMatch v (c :: cs)

/-- build.py 366-371: the substitution `^autd3(.*)version = "(.*?)"` →
`autd3\1version = "v"` (MULTILINE) on one line: anchored at a leading `autd3`
and keeping the greedy group verbatim. -/
def sub2Line (v l : List Char) : List Char :=
  if AUTD3.isPrefixOf l then
    match sub2Core v (l.drop AUTD3.length) with
    | some r => AUTD3 ++ r
    | none => l
  else l

/-- One line of the manifest after both substitution passes. -/
def upverLine (v l : List Char) : List Char := sub2Line v (sub1Line v l)

/-- build.py 353-373: `util_update_ver` on one manifest: the whole content
passes through the first regex, then through the second. The content is
modelled as its list of lines: both patterns are `^`-anchored MULTILINE and
newline-free, so each `re.sub` rewrites lines independently; the version is
interpolated literally (the idempotence theorem assumes it contains no quote —
a backslash or newline would likewise escape this per-line model). -/
def util_update_ver (v : String) (content : List (List Char)) : List (List Char) :=
  (content.map (sub1Line v.data)).map (sub2Line v.data)

/-- A small Cargo manifest before the version bump: a top-level version field,
two dependencies under the `autd3` namespace prefix, and one foreign
dependency. -/
def demoManifest : List (List Char) :=
  ["[package]".data,
   "name = \"autd3\"".data,
   "version = \"1.2.3\"".data,
   "[dependencies]".data,
   "autd3-driver = \x7b version = \"1.2.3\", path = \"./autd3-driver\" \x7d".data,
   "autd3-derive = \x7b version = \"1.2.3\" \x7d".data,
   "serde = \x7b version = \"1.0\" \x7d".data]

/-- The same manifest after `util upver 2.0.0`: the top-level version and every
`autd3`-prefixed dependency version read 2.0.0; the foreign dependency is
untouched. -/
def demoManifestBumped : List (List Char) :=
  ["[package]".data,
   "name = \"autd3\"".data,
   "version = \"2.0.0\"".data,
   "[dependencies]".data,
   "autd3-driver = \x7b version = \"2.0.0\", path = \"./autd3-driver\" \x7d".data,
   "autd3-derive = \x7b version = \"2.0.0\" \x7d".data,
   "serde = \x7b version = \"1.0\" \x7d".data]

/-- C1 (amended): the exhaustive architecture mapping of `Config.__init__`:
Linux "arm32"/"aarch64" and Windows "aarch64" yield the documented triples; no
requested architecture yields target `None` on every supported platform; every
other requested architecture on Linux or Windows — the empty string included —
is a fatal UnsupportedArchitecture error; and on macOS a requested architecture
leaves the target attribute unassigned, so no target is ever set. -/
theorem configInit_arch_mapping :
    (∀ r ne, configInit "Linux" r ne (some "arm32") =
      InitResult.ok ⟨"Linux", r, some "armv7-unknown-linux-gnueabihf", ne⟩) ∧
    (∀ r ne, configInit "Linux" r ne (some "aarch64") =
      InitResult.ok ⟨"Linux", r, some "aarch64-unknown-linux-gnu", ne⟩) ∧
    (∀ r ne, configInit "Windows" r ne (some "aarch64") =
      InitResult.ok ⟨"Windows", r, some "aarch64-pc-windows-msvc", ne⟩) ∧
    (∀ a r ne, a ≠ "arm32" → a ≠ "aarch64" →
      configInit "Linux" r ne (some a) = InitResult.fatalArch a) ∧
    (∀ a r ne, a ≠ "aarch64" →
      configInit "Windows" r ne (some a) = InitResult.fatalArch a) ∧
    (∀ p r ne, (is_windows p || is_macos p || is_linux p) = true →
      configInit p r ne none = InitResult.ok ⟨p, r, none, ne⟩) ∧
    (∀ a r ne, configInit "Darwin" r ne (some a) =
      InitResult.okTargetUnset "Darwin" r ne) := by
  refine ⟨fun r ne => rfl, fun r ne => rfl, fun r ne => rfl, ?_, ?_, ?_, fun a r ne => rfl⟩
  · intro a r ne h1 h2
    simp [configInit, is_windows, is_macos, is_linux, h1, h2]
  · intro a r ne h1
    simp [configInit, is_windows, is_macos, is_linux, h1]
  · intro p r ne h
    cases hw : is_windows p <;> cases hm : is_macos p <;> cases hl : is_linux p <;>
      simp_all [configInit]

/-- C1 counterexample: the claim "the empty-string architecture yields no
target" is false: on Linux the empty string falls to the wildcard `match` arm
and `Config.__init__` aborts with the fatal UnsupportedArchitecture error. -/
theorem configInit_empty_arch_fatal :
    configInit "Linux" false false (some "") = InitResult.fatalArch "" := by rfl

/-- C2 (amended): `cargo_build_command` emits, in order: the driver (`cross`
exactly when a target is set and the host is Linux, `cargo` otherwise, even
with a target on a non-Linux host), the subcommand, `--target <triple>` iff a
target is set, `--release` iff `config.release`, and finally the `--features`
pair carrying the merged feature string. No workspace-scope flag is emitted by
the builder (handlers append `--workspace` themselves). -/
theorem cargo_build_command_token_order :
    ∀ (c : Config) (extra : Option String),
      cargo_build_command c extra =
        (if c.target.isSome && is_linux c.platform then "cross" else "cargo")
          :: "build"
          :: ((match c.target with
              | some t => ["--target", t]
              | none => [])
            ++ (if c.release then ["--release"] else [])
            ++ ["--features", buildFeatures extra]) := by
  intro c extra
  rcases c with ⟨p, rel, tgt, ne⟩
  cases tgt with
  | none => cases rel <;> simp [cargo_build_command, cargo_command_base]
  | some t =>
    cases h : is_linux p <;> cases rel <;>
      simp [cargo_build_command, cargo_command_base, h]

/-- C2 counterexample: the claim says the builder always emits a
workspace-scope flag between `--target` and `--release`; in fact no
`--workspace` token ever appears in a command built by `cargo_build_command`,
shown here at a concrete release cross-compiling configuration. -/
theorem cargo_build_command_no_workspace_flag :
    "--workspace" ∉
      cargo_build_command ⟨"Linux", true, some "aarch64-unknown-linux-gnu", false⟩
        (some "foo") := by decide

theorem splitCh_ne_nil (c : Char) (l : List Char) : splitCh c l ≠ [] := by
  induction l with
  | nil => simp [splitCh]
  | cons a as ih =>
    simp only [splitCh]
    rcases h : splitCh c as with _ | ⟨hd, tl⟩
    · simp
    · by_cases hac : a = c <;> simp [hac]

theorem splitCh_sep_append {c : Char} {pre : List Char} (rest : List Char)
    (h : c ∉ pre) : splitCh c (pre ++ c :: rest) = pre :: splitCh c rest := by
  induction pre with
  | nil =>
    simp only [List.nil_append, splitCh]
    rcases hs : splitCh c rest with _ | ⟨hd, tl⟩
    · exact absurd hs (splitCh_ne_nil c rest)
    · simp
  | cons a pre' ih =>
    have ha : a ≠ c := fun hac => h (hac ▸ List.mem_cons_self a pre')
    have h' : c ∉ pre' := fun hc => h (List.mem_cons_of_mem a hc)
    have key := ih h'
    show (match splitCh c (pre' ++ c :: rest) with
          | [] => [[]]
          | hd :: tl => if a = c then [] :: hd :: tl else (a :: hd) :: tl)
        = (a :: pre') :: splitCh c rest
    rw [key]
    simp [ha]

/-- C9 (amended): feature assembly in `cargo_build_command` is plain string
concatenation: the merged token sequence is the baseline token `remote`
followed by the caller's tokens verbatim and in order (so every caller token is
preserved), and no de-duplication is performed: the baseline token occurs once
more than the caller supplies it — exactly once only when the caller does not
itself pass `remote`. -/
theorem buildFeatures_tokens :
    ∀ f : String,
      featTokens (some f) = "remote".data :: splitCh ' ' f.data ∧
      featTokens none = ["remote".data] ∧
      (featTokens (some f)).count "remote".data
        = (splitCh ' ' f.data).count "remote".data + 1 := by
  intro f
  have hdata : (buildFeatures (some f)).data = "remote".data ++ ' ' :: f.data := by
    show ("remote" ++ " " ++ f).data = "remote".data ++ ' ' :: f.data
    simp [String.data_append]
  have hsplit : featTokens (some f) = "remote".data :: splitCh ' ' f.data := by
    unfold featTokens
    rw [hdata, splitCh_sep_append f.data (by decide)]
  refine ⟨hsplit, rfl, ?_⟩
  rw [hsplit]
  simp [List.count_cons]

/-- C9 counterexample: the claim says the baseline token appears exactly once
in the merged feature string even when the caller also supplies it; in fact a
caller-supplied `remote` is concatenated, not de-duplicated, and the token
appears twice. -/
theorem buildFeatures_baseline_duplicated :
    (featTokens (some "remote")).count "remote".data = 2 := by decide

/-- C3: on an unknown example name, `rust_run` prints the formatted error and
the allow-list and spawns no subprocess — but it merely returns `-1`, and
`__main__` discards that value, so the process exit code is 0, not nonzero as
the claim (and build.py's own exit-code contract) requires. -/
theorem rust_run_unknown_target_exit_zero :
    rust_run ⟨"foo", false⟩ (fun _ => 0) =
      { printed := [errMsg "example \"foo\" is not found.",
                    infoMsg ("Available examples: " ++ pyStrListRepr examplesAllowList)],
        spawned := [], ret := some (-1), raised := false } ∧
    mainExitCode (rust_run ⟨"foo", false⟩ (fun _ => 0)) = 0 := by
  constructor <;> rfl

/-- C7: scoped overrides are reverted on every exit path: after `with_env` the
environment equals its pre-invocation value pointwise, whatever the body did
and whether it returned or raised; after `working_dir` the working directory
equals its pre-invocation value; and in particular after the coverage handler
— for every runner behaviour, including any failing step — both the
environment and the working directory equal their pre-invocation values. -/
theorem scoped_overrides_restored :
    (∀ (α : Type) (kwargs : List (String × String))
        (body : ProcState → Except String α × ProcState) (s0 : ProcState)
        (k : String),
      ((with_env kwargs body s0).2).env k = s0.env k) ∧
    (∀ (α : Type) (path : String)
        (body : ProcState → Except String α × ProcState) (s0 : ProcState),
      ((working_dir path body s0).2).cwd = s0.cwd) ∧
    (∀ (format : String)
        (runner : List String → ProcState → Except String Unit × ProcState)
        (s0 : ProcState) (k : String),
      ((rust_coverage format runner s0).2).env k = s0.env k ∧
      ((rust_coverage format runner s0).2).cwd = s0.cwd) := by
  refine ⟨?_, fun α path body s0 => rfl, ?_⟩
  · intro α kwargs body s0 k
    show envUpdate envClear s0.env k = s0.env k
    cases h : s0.env k <;> simp [envUpdate, envClear, h]
  · intro format runner s0 k
    refine ⟨?_, rfl⟩
    show envUpdate envClear s0.env k = s0.env k
    cases h : s0.env k <;> simp [envUpdate, envClear, h]

/-- The feature string of `rust_test` always begins with the 22-character
prefix `"test-utilities remote "` (or equals `"test-utilities remote"`), so it
can never be the package name `autd3-link-soem`. -/
theorem testFeatures_ne_soem (extra : Option String) :
    testFeatures extra ≠ "autd3-link-soem" := by
  cases extra with
  | none => decide
  | some f =>
    intro h
    have hl := congrArg String.length h
    rw [show testFeatures (some f) = ("test-utilities remote" ++ " ") ++ f from rfl,
      String.length_append,
      show ("test-utilities remote" ++ " " : String).length = 22 from rfl,
      show ("autd3-link-soem" : String).length = 15 from rfl] at hl
    omega

/-- C4 (amended): with the miri flag set, `rust_test` performs a single
invocation with the alternate channel and runner tokens
`+nightly miri nextest run`; the feature string is `"test-utilities remote"`
plus caller extras — the baseline `remote` token is present, not suppressed —
and the exclusions are the always-present `examples`, then `autd3-link-soem`
exactly when the pcap probe reports unavailable, then the static miri list
`autd3`, `autd3-derive`, `autd3-modulation-audio-file`. -/
theorem rust_test_miri_command :
    ∀ (plat : String) (release : Bool) (extra : Option String)
      (fe : String → Bool) (env0 : Env),
      rust_test plat ⟨release, extra, true⟩ fe env0 =
        if (is_windows plat || is_macos plat || is_linux plat) then
          some ⟨["cargo", "+nightly", "miri", "nextest", "run"]
            ++ (if release then ["--release"] else [])
            ++ ["--features", testFeatures extra, "--workspace",
                "--exclude", "examples"]
            ++ (if is_pcap_available ⟨plat, release, none, false⟩ fe then []
                else ["--exclude", "autd3-link-soem"])
            ++ ["--exclude", "autd3", "--exclude", "autd3-derive",
                "--exclude", "autd3-modulation-audio-file"],
            envOverrides [("MIRIFLAGS", MIRIFLAGS_VALUE)] env0⟩
        else none := by
  intro plat release extra fe env0
  cases release <;>
    cases hw : is_windows plat <;> cases hm : is_macos plat <;>
    cases hl : is_linux plat <;>
    cases hp : is_pcap_available ⟨plat, _, none, false⟩ fe <;>
    simp [rust_test, configInit, hw, hm, hl, hp, cargo_command_base]

/-- C4 counterexample: the claim says baseline-feature injection is suppressed
under miri (the baseline token absent from the feature string) and that the
static exclusion list contains three hardware/link packages; in fact the
feature string of the miri invocation is `"test-utilities remote"` — the
baseline token `remote` is present — and the miri-specific exclusions are
exactly `autd3`, `autd3-derive` and `autd3-modulation-audio-file` (on Linux no
link package is excluded at all). -/
theorem rust_test_miri_keeps_baseline :
    ("remote".data ∈ splitCh ' ' (testFeatures none).data) ∧
    (rust_test "Linux" ⟨false, none, true⟩ (fun _ => false)
        (fun _ => none)).map TestInvocation.command
      = some ["cargo", "+nightly", "miri", "nextest", "run", "--features",
              "test-utilities remote", "--workspace", "--exclude", "examples",
              "--exclude", "autd3", "--exclude", "autd3-derive",
              "--exclude", "autd3-modulation-audio-file"] := by
  exact ⟨by decide, rfl⟩

/-- C6: without the miri flag, `rust_test` performs a single invocation with
the default runner `nextest run`, always excluding `examples`, and excluding
`autd3-link-soem` if and only if the pcap probe reports unavailable; the probe
checks files only on Windows and is unconditionally true on every other
platform, so on Linux and macOS the extra exclusion never appears. -/
theorem rust_test_default_command :
    (∀ (plat : String) (release : Bool) (extra : Option String)
        (fe : String → Bool) (env0 : Env),
      rust_test plat ⟨release, extra, false⟩ fe env0 =
        if (is_windows plat || is_macos plat || is_linux plat) then
          some ⟨["cargo", "nextest", "run"]
            ++ (if release then ["--release"] else [])
            ++ ["--features", testFeatures extra, "--workspace",
                "--exclude", "examples"]
            ++ (if is_pcap_available ⟨plat, release, none, false⟩ fe then []
                else ["--exclude", "autd3-link-soem"]),
            envOverrides [("MIRIFLAGS", MIRIFLAGS_VALUE)] env0⟩
        else none) ∧
    (∀ (c : Config) (fe : String → Bool),
      is_windows c.platform = false → is_pcap_available c fe = true) ∧
    (∀ (release : Bool) (extra : Option String) (fe : String → Bool)
        (env0 : Env) (inv : TestInvocation),
      rust_test "Linux" ⟨release, extra, false⟩ fe env0 = some inv →
        "autd3-link-soem" ∉ inv.command) ∧
    (∀ (release : Bool) (extra : Option String) (fe : String → Bool)
        (env0 : Env) (inv : TestInvocation),
      rust_test "Darwin" ⟨release, extra, false⟩ fe env0 = some inv →
        "autd3-link-soem" ∉ inv.command) := by
  have h1 : ∀ (plat : String) (release : Bool) (extra : Option String)
      (fe : String → Bool) (env0 : Env),
      rust_test plat ⟨release, extra, false⟩ fe env0 =
        if (is_windows plat || is_macos plat || is_linux plat) then
          some ⟨["cargo", "nextest", "run"]
            ++ (if release then ["--release"] else [])
            ++ ["--features", testFeatures extra, "--workspace",
                "--exclude", "examples"]
            ++ (if is_pcap_available ⟨plat, release, none, false⟩ fe then []
                else ["--exclude", "autd3-link-soem"]),
            envOverrides [("MIRIFLAGS", MIRIFLAGS_VALUE)] env0⟩
        else none := by
    intro plat release extra fe env0
    cases release <;>
      cases hw : is_windows plat <;> cases hm : is_macos plat <;>
      cases hl : is_linux plat <;>
      cases hp : is_pcap_available ⟨plat, _, none, false⟩ fe <;>
      simp [rust_test, configInit, hw, hm, hl, hp, cargo_command_base]
  have h2 : ∀ (c : Config) (fe : String → Bool),
      is_windows c.platform = false → is_pcap_available c fe = true := by
    intro c fe h
    simp [is_pcap_available, h]
  refine ⟨h1, h2, ?_, ?_⟩
  · intro release extra fe env0 inv h
    rw [h1] at h
    rw [show is_pcap_available ⟨"Linux", release, none, false⟩ fe = true from
      h2 ⟨"Linux", release, none, false⟩ fe rfl] at h
    simp only [is_windows, is_macos, is_linux] at h
    norm_num at h
    rw [← h]
    cases release <;> simp [testFeatures_ne_soem extra] <;>
      exact fun hh => testFeatures_ne_soem extra hh.symm
  · intro release extra fe env0 inv h
    rw [h1] at h
    rw [show is_pcap_available ⟨"Darwin", release, none, false⟩ fe = true from
      h2 ⟨"Darwin", release, none, false⟩ fe rfl] at h
    simp only [is_windows, is_macos, is_linux] at h
    norm_num at h
    rw [← h]
    cases release <;> simp [testFeatures_ne_soem extra] <;>
      exact fun hh => testFeatures_ne_soem extra hh.symm

/-- C10: every `rust_test` invocation — miri flag set or not — spawns its test
subprocess inside the `with_env(MIRIFLAGS="-Zmiri-disable-isolation")` scope:
the override is visible in the spawned process's environment unconditionally.
-/
theorem rust_test_miriflags_always_set :
    ∀ (plat : String) (args : TestArgs) (fe : String → Bool) (env0 : Env)
      (inv : TestInvocation),
      rust_test plat args fe env0 = some inv →
        inv.env "MIRIFLAGS" = some MIRIFLAGS_VALUE := by
  intro plat args fe env0 inv h
  unfold rust_test at h
  cases hc : configInit plat args.release false none <;> rw [hc] at h <;>
    simp only [Option.some.injEq, reduceCtorEq] at h
  case ok c =>
    rw [← h]
    simp [envOverrides, envSet]

/-- C10 witness: the non-miri `test` invocation on Linux, with no extra
features, runs with the isolation-disabling override set. -/
theorem rust_test_miriflags_witness :
    (TestInvocation.mk
        ["cargo", "nextest", "run", "--features", "test-utilities remote",
         "--workspace", "--exclude", "examples"]
        (envOverrides [("MIRIFLAGS", MIRIFLAGS_VALUE)] (fun _ => none))).env
      "MIRIFLAGS" = some MIRIFLAGS_VALUE :=
  rust_test_miriflags_always_set "Linux" ⟨false, none, false⟩ (fun _ => false)
    (fun _ => none)
    ⟨["cargo", "nextest", "run", "--features", "test-utilities remote",
      "--workspace", "--exclude", "examples"],
      envOverrides [("MIRIFLAGS", MIRIFLAGS_VALUE)] (fun _ => none)⟩ rfl

/-- C5: the scan lists exactly the non-excluded files containing a risk marker
on an unsuppressed line; in particular, for one file with an unsuppressed
`unsafe` and one file whose only `unsafe` sits on a `SAFETY`-suppressed line,
the output contains exactly the first file's path. -/
theorem riskScan_flags_unsuppressed :
    (∀ (dirs : List String) (files : List (String × List String)) (p : String),
      p ∈ riskScan dirs files ↔
        ∃ ls, (p, ls) ∈ files ∧ pathExcluded dirs p = false ∧
          fileFlagged ls = true) ∧
    riskScan ["autd3-link-soem"]
      [("autd3-core/src/a.rs",
         ["fn f() \x7b", "    unsafe \x7b g(); \x7d", "\x7d"]),
       ("autd3-core/src/b.rs",
         ["fn h() \x7b", "    unsafe \x7b g(); \x7d // SAFETY: checked",
          "\x7d"])]
      = ["autd3-core/src/a.rs"] ∧
    riskScanOutput ["autd3-link-soem"]
      [("autd3-core/src/a.rs",
         ["fn f() \x7b", "    unsafe \x7b g(); \x7d", "\x7d"]),
       ("autd3-core/src/b.rs",
         ["fn h() \x7b", "    unsafe \x7b g(); \x7d // SAFETY: checked",
          "\x7d"])]
      = "autd3-core/src/a.rs" := by
  refine ⟨?_, by decide, by decide⟩
  intro dirs files p
  simp only [riskScan, List.mem_map, List.mem_filter]
  constructor
  · rintro ⟨⟨q, ls⟩, ⟨hmem, hcond⟩, rfl⟩
    rw [Bool.and_eq_true, Bool.not_eq_true'] at hcond
    exact ⟨ls, hmem, hcond.1, hcond.2⟩
  · rintro ⟨ls, hmem, hexc, hfl⟩
    exact ⟨(p, ls), ⟨hmem, by simp [hexc, hfl]⟩, rfl⟩

/-- Bridge between the executable `List.isPrefixOf` and the prefix relation. -/
theorem prefixOf_iff {l₁ l₂ : List Char} :
    l₁.isPrefixOf l₂ = true ↔ l₁ <+: l₂ :=
  List.isPrefixOf_iff_prefix

theorem splitFirst_of_append {c : Char} {pre : List Char} (post : List Char)
    (h : c ∉ pre) : splitFirst c (pre ++ c :: post) = some (pre, post) := by
  induction pre with
  | nil => simp [splitFirst]
  | cons a pre' ih =>
    have ha : a ≠ c := fun hac => h (hac ▸ List.mem_cons_self a pre')
    have h' : c ∉ pre' := fun hc => h (List.mem_cons_of_mem a hc)
    simp [splitFirst, ha, ih h']

theorem splitFirst_eq_some {c : Char} :
    ∀ {l : List Char} {pr : List Char × List Char},
      splitFirst c l = some pr → l = pr.1 ++ c :: pr.2 ∧ c ∉ pr.1 := by
  intro l
  induction l with
  | nil => intro pr h; simp [splitFirst] at h
  | cons a as ih =>
    intro pr h
    by_cases hac : a = c
    · rw [splitFirst, if_pos hac] at h
      obtain rfl : ([], as) = pr := Option.some.inj h
      exact ⟨by simp [hac], by simp⟩
    · rw [splitFirst, if_neg hac] at h
      cases hs : splitFirst c as with
      | none => rw [hs] at h; exact absurd h (by simp)
      | some pr' =>
        rw [hs] at h
        obtain rfl : (a :: pr'.1, pr'.2) = pr := Option.some.inj h
        obtain ⟨hl, hc⟩ := ih hs
        constructor
        · show a :: as = (a :: pr'.1) ++ c :: pr'.2
          rw [List.cons_append, ← hl]
        · show c ∉ a :: pr'.1
          intro hmem
          rcases List.mem_cons.mp hmem with h1 | h1
          · exact hac h1.symm
          · exact hc h1

theorem tryMatch_eq_some {v l r : List Char} (h : tryMatch v l = some r) :
    ∃ g2 after, l = VERKEY ++ g2 ++ '"' :: after ∧ '"' ∉ g2 ∧
      r = VERKEY ++ v ++ '"' :: after := by
  unfold tryMatch at h
  by_cases hp : VERKEY.isPrefixOf l
  · rw [if_pos hp] at h
    obtain ⟨rest, rfl⟩ : ∃ rest, l = VERKEY ++ rest := by
      obtain ⟨t, ht⟩ := prefixOf_iff.mp hp
      exact ⟨t, ht.symm⟩
    rw [show VERKEY.length = 11 from rfl,
      show List.drop 11 (VERKEY ++ rest) = rest from List.drop_left VERKEY rest] at h
    cases hs : splitFirst '"' rest with
    | none => rw [hs] at h; exact absurd h (by simp)
    | some pr =>
      rw [hs] at h
      obtain ⟨hl, hmem⟩ := splitFirst_eq_some hs
      refine ⟨pr.1, pr.2, ?_, hmem, (Option.some.inj h).symm⟩
      rw [hl, List.append_assoc]
  · rw [if_neg hp] at h
    exact absurd h (by simp)

theorem tryMatch_self {v after : List Char} (hq : '"' ∉ v) :
    tryMatch v (VERKEY ++ v ++ '"' :: after) =
      some (VERKEY ++ v ++ '"' :: after) := by
  unfold tryMatch
  rw [if_pos (prefixOf_iff.mpr (by rw [List.append_assoc]; exact List.prefix_append VERKEY _)),
    show VERKEY.length = 11 from rfl, List.append_assoc,
    show List.drop 11 (VERKEY ++ (v ++ '"' :: after)) = v ++ '"' :: after from
      List.drop_left VERKEY _,
    splitFirst_of_append after hq]
  simp [List.append_assoc]

/-- A line whose first character is not `v` cannot begin with `version = "`. -/
theorem tryMatch_none_of_head {v : List Char} {c : Char} {cs : List Char}
    (h : c ≠ 'v') : tryMatch v (c :: cs) = none := by
  have hp : ¬ (VERKEY.isPrefixOf (c :: cs) = true) := by
    intro hp
    obtain ⟨t, ht⟩ := prefixOf_iff.mp hp
    simp only [VERKEY, List.cons_append] at ht
    injection ht with h1 _
    exact h h1.symm
  simp [tryMatch, hp]

/-- Prepending a non-`v` character preserves matchlessness of the greedy
search. -/
theorem sub2Core_none_cons {v : List Char} {c : Char} {rest : List Char}
    (h : sub2Core v rest = none) (hc : c ≠ 'v') :
    sub2Core v (c :: rest) = none := by
  unfold sub2Core
  rw [h, tryMatch_none_of_head hc]

/-- If the greedy search finds nothing in `l`, it finds nothing in any suffix
of `l`. -/
theorem sub2Core_none_suffix {v : List Char} :
    ∀ {l s : List Char}, sub2Core v l = none → s <:+ l → sub2Core v s = none := by
  intro l
  induction l with
  | nil =>
    intro s h hs
    rw [List.suffix_nil.mp hs]
    rfl
  | cons c cs ih =>
    intro s h hs
    have hcs : sub2Core v cs = none := by
      cases hc : sub2Core v cs with
      | none => rfl
      | some r =>
        unfold sub2Core at h
        rw [hc] at h
        exact absurd h (by simp)
    rcases List.suffix_cons_iff.mp hs with rfl | hs'
    · exact h
    · exact ih hcs hs'

/-- Two quote-free runs closed by a quote: if one such block is a prefix of
another, the runs coincide. -/
theorem quote_split {u w : List Char} :
    ∀ {a b : List Char}, '"' ∉ a → '"' ∉ b →
      (a ++ '"' :: u) <+: (b ++ '"' :: w) → a = b ∧ u <+: w := by
  intro a
  induction a with
  | nil =>
    intro b ha hb h
    cases b with
    | nil =>
      exact ⟨rfl, (List.cons_prefix_cons.mp h).2⟩
    | cons x b' =>
      simp only [List.nil_append, List.cons_append] at h
      obtain ⟨h1, _⟩ := List.cons_prefix_cons.mp h
      exact absurd (List.mem_cons.mpr (Or.inl h1)) hb
  | cons y a' ih =>
    intro b ha hb h
    cases b with
    | nil =>
      simp only [List.cons_append, List.nil_append] at h
      obtain ⟨h1, _⟩ := List.cons_prefix_cons.mp h
      exact absurd (List.mem_cons.mpr (Or.inl h1.symm)) ha
    | cons x b' =>
      simp only [List.cons_append] at h
      obtain ⟨h1, h2⟩ := List.cons_prefix_cons.mp h
      have ha' : '"' ∉ a' := fun hm => ha (List.mem_cons_of_mem y hm)
      have hb' : '"' ∉ b' := fun hm => hb (List.mem_cons_of_mem x hm)
      obtain ⟨rfl, hu⟩ := ih ha' hb' h2
      exact ⟨by rw [h1], hu⟩

/-- No occurrence of `version = "` (with a closing quote) survives inside a
quote-free suffix of the version string followed by the closing quote and a
matchless tail — provided the version does not itself end in `version = `. -/
theorem sub2Core_none_quote {v after : List Char} (hq : '"' ∉ v)
    (hs : ¬ VERKEYBODY <:+ v) (h : sub2Core v after = none) :
    ∀ w, w <:+ v → sub2Core v (w ++ '"' :: after) = none := by
  intro w
  induction w with
  | nil =>
    intro _
    show sub2Core v ('"' :: after) = none
    exact sub2Core_none_cons h (by decide)
  | cons x w' ih =>
    intro hw
    have hw' : w' <:+ v := (List.suffix_cons x w').trans hw
    have inner := ih hw'
    have hx : '"' ∉ (x :: w') := fun hm => hq (List.IsSuffix.subset hw hm)
    have htm : tryMatch v ((x :: w') ++ '"' :: after) = none := by
      have hp : ¬ (VERKEY.isPrefixOf ((x :: w') ++ '"' :: after) = true) := by
        intro hp
        have hpre := prefixOf_iff.mp hp
        rw [show VERKEY = VERKEYBODY ++ '"' :: [] from rfl] at hpre
        obtain ⟨heq, _⟩ := quote_split (by decide) hx hpre
        exact hs (by rw [heq]; exact hw)
      unfold tryMatch
      rw [if_neg hp]
    show sub2Core v (x :: (w' ++ '"' :: after)) = none
    unfold sub2Core
    rw [inner]
    show tryMatch v (x :: (w' ++ '"' :: after)) = none
    exact htm

/-- A rewritten occurrence `version = "v"` (with matchless tail) is itself the
rightmost — and only — match the greedy search finds. -/
theorem sub2Core_rewrites_self {v after : List Char} (hq : '"' ∉ v)
    (hs : ¬ VERKEYBODY <:+ v) (h : sub2Core v after = none) :
    sub2Core v (VERKEY ++ v ++ '"' :: after) =
      some (VERKEY ++ v ++ '"' :: after) := by
  have z0 : sub2Core v (v ++ '"' :: after) = none :=
    sub2Core_none_quote hq hs h v (List.suffix_refl v)
  have z1 := sub2Core_none_cons z0 (show ('"' : Char) ≠ 'v' by decide)
  have z2 := sub2Core_none_cons z1 (show (' ' : Char) ≠ 'v' by decide)
  have z3 := sub2Core_none_cons z2 (show ('=' : Char) ≠ 'v' by decide)
  have z4 := sub2Core_none_cons z3 (show (' ' : Char) ≠ 'v' by decide)
  have z5 := sub2Core_none_cons z4 (show ('n' : Char) ≠ 'v' by decide)
  have z6 := sub2Core_none_cons z5 (show ('o' : Char) ≠ 'v' by decide)
  have z7 := sub2Core_none_cons z6 (show ('i' : Char) ≠ 'v' by decide)
  have z8 := sub2Core_none_cons z7 (show ('s' : Char) ≠ 'v' by decide)
  have z9 := sub2Core_none_cons z8 (show ('r' : Char) ≠ 'v' by decide)
  have z10 := sub2Core_none_cons z9 (show ('e' : Char) ≠ 'v' by decide)
  show sub2Core v
      ('v' :: ('e' :: 'r' :: 's' :: 'i' :: 'o' :: 'n' :: ' ' :: '=' :: ' ' ::
        '"' :: (v ++ '"' :: after))) = some (VERKEY ++ v ++ '"' :: after)
  unfold sub2Core
  rw [z10]
  show tryMatch v (VERKEY ++ v ++ '"' :: after) = some (VERKEY ++ v ++ '"' :: after)
  exact tryMatch_self hq

/-- Once the dependency substitution has rewritten a line's portion, running
the greedy search again rewrites it to itself: the core of upver idempotence.
-/
theorem sub2Core_idem {v : List Char} (hq : '"' ∉ v) (hs : ¬ VERKEYBODY <:+ v) :
    ∀ {rest res : List Char}, sub2Core v rest = some res →
      sub2Core v res = some res := by
  intro rest
  induction rest with
  | nil => intro res h; simp [sub2Core] at h
  | cons c cs ih =>
    intro res h
    cases hc : sub2Core v cs with
    | some r =>
      have hres : res = c :: r := by
        unfold sub2Core at h
        rw [hc] at h
        exact (Option.some.inj h).symm
      subst hres
      have hr := ih hc
      unfold sub2Core
      rw [hr]
    | none =>
      have htm : tryMatch v (c :: cs) = some res := by
        unfold sub2Core at h
        rw [hc] at h
        exact h
      obtain ⟨g2, after, hl, hg, hr⟩ := tryMatch_eq_some htm
      subst hr
      have hsuf : after <:+ c :: cs := by
        rw [hl]
        exact ⟨(VERKEY ++ g2) ++ ['"'], by simp⟩
      have hafter : after <:+ cs := by
        rcases List.suffix_cons_iff.mp hsuf with heq | hsuf'
        · exfalso
          have hlen := congrArg List.length hl
          rw [heq] at hlen
          simp [List.length_append, VERKEY] at hlen
          omega
        · exact hsuf'
      have hnone := sub2Core_none_suffix hc hafter
      exact sub2Core_rewrites_self hq hs hnone

/-- The top-level substitution is idempotent on every line, given a quote-free
version string. -/
theorem sub1Line_idem {v l : List Char} (hq : '"' ∉ v) :
    sub1Line v (sub1Line v l) = sub1Line v l := by
  cases ht : tryMatch v l with
  | none => simp [sub1Line, ht]
  | some r =>
    obtain ⟨g2, after, hl, hg, hr⟩ := tryMatch_eq_some ht
    subst hr
    have hts := @tryMatch_self v after hq
    simp only [List.append_assoc] at hts
    simp [sub1Line, ht, hts]

/-- Executable prefix test fails on lists with different heads. -/
theorem isPrefixOf_false_of_head {a b : Char} {as bs : List Char} (h : a ≠ b) :
    (a :: as).isPrefixOf (b :: bs) = false := by
  have hb : (a == b) = false := beq_eq_false_iff_ne.mpr h
  simp [List.isPrefixOf, hb]

/-- A match of `version = "(.*?)"` anywhere strictly inside a line rewrites
only that occurrence, and the rewritten occurrence is reproduced verbatim:
the anchored-match characterization used for the value-correctness part. -/
theorem tryMatch_rewrite {v g2 after : List Char} (hg : '"' ∉ g2) :
    tryMatch v (VERKEY ++ g2 ++ '"' :: after) =
      some (VERKEY ++ v ++ '"' :: after) := by
  unfold tryMatch
  rw [if_pos (prefixOf_iff.mpr (by rw [List.append_assoc]; exact List.prefix_append VERKEY _)),
    show VERKEY.length = 11 from rfl, List.append_assoc,
    show List.drop 11 (VERKEY ++ (g2 ++ '"' :: after)) = g2 ++ '"' :: after from
      List.drop_left VERKEY _,
    splitFirst_of_append after hg]

/-- A line beginning with `autd3` never matches the `^version`-anchored first
substitution. -/
theorem tryMatch_none_of_autd {v l : List Char}
    (h : AUTD3.isPrefixOf l = true) : tryMatch v l = none := by
  obtain ⟨t, ht⟩ := prefixOf_iff.mp h
  rw [← ht]
  exact tryMatch_none_of_head (by decide)

/-- The first substitution cannot make a line start with `autd3`: it either
leaves the line alone or makes it start with `version = "`. -/
theorem sub1_result_not_autd {v l : List Char}
    (h : AUTD3.isPrefixOf l = false) :
    AUTD3.isPrefixOf (sub1Line v l) = false := by
  cases ht : tryMatch v l with
  | none => simp [sub1Line, ht, h]
  | some r =>
    obtain ⟨g2, after, hl, hg, hr⟩ := tryMatch_eq_some ht
    subst hr
    have e : sub1Line v l = VERKEY ++ v ++ '"' :: after := by
      simp [sub1Line, ht]
    rw [e]
    exact isPrefixOf_false_of_head (by decide)

/-- The second substitution only touches lines anchored at `autd3`. -/
theorem sub2Line_id_of_not_autd {v l : List Char}
    (h : AUTD3.isPrefixOf l = false) : sub2Line v l = l := by
  simp [sub2Line, h]

/-- Both substitution passes together are idempotent on a single line, for a
version string without a quote and not ending in `version = `. -/
theorem upverLine_idem {v l : List Char} (hq : '"' ∉ v)
    (hs : ¬ VERKEYBODY <:+ v) :
    upverLine v (upverLine v l) = upverLine v l := by
  cases ha : AUTD3.isPrefixOf l with
  | false =>
    have h2 : AUTD3.isPrefixOf (sub1Line v l) = false := sub1_result_not_autd ha
    have e1 : upverLine v l = sub1Line v l := sub2Line_id_of_not_autd h2
    rw [e1]
    unfold upverLine
    rw [sub1Line_idem hq]
    exact sub2Line_id_of_not_autd h2
  | true =>
    have h1 : sub1Line v l = l := by
      simp [sub1Line, @tryMatch_none_of_autd v l ha]
    cases hc : sub2Core v (l.drop AUTD3.length) with
    | none =>
      have e1 : upverLine v l = l := by
        unfold upverLine
        rw [h1]
        simp [sub2Line, ha, hc]
      rw [e1]
      exact e1
    | some r =>
      have e1 : upverLine v l = AUTD3 ++ r := by
        unfold upverLine
        rw [h1]
        simp [sub2Line, ha, hc]
      rw [e1]
      have ha2 : AUTD3.isPrefixOf (AUTD3 ++ r) = true :=
        prefixOf_iff.mpr (List.prefix_append _ _)
      have h1' : sub1Line v (AUTD3 ++ r) = AUTD3 ++ r := by
        simp [sub1Line, @tryMatch_none_of_autd v (AUTD3 ++ r) ha2]
      have hdrop : (AUTD3 ++ r).drop AUTD3.length = r := List.drop_left _ _
      have hr := sub2Core_idem hq hs hc
      unfold upverLine
      rw [h1']
      simp [sub2Line, ha2, hdrop, hr]

/-- C8: `util upver` is idempotent for a fixed target version (any version
string without a double quote and not ending in `version = ` — every release
version such as 2.0.0 qualifies): the second application of the two ordered
substitutions leaves the manifest unchanged. Moreover one application rewrites
any line carrying a version field at column 0 to carry exactly the target
version, and on the demonstration manifest starting from 1.2.3 the top-level
version field and both `autd3`-prefixed dependency versions read 2.0.0
afterwards. -/
theorem upver_idempotent (v : String) (content : List (List Char))
    (hq : '"' ∉ v.data) (hs : ¬ VERKEYBODY <:+ v.data) :
    util_update_ver v (util_update_ver v content) = util_update_ver v content ∧
    (∀ g2 after : List Char, '"' ∉ g2 →
      upverLine v.data (VERKEY ++ g2 ++ '"' :: after) =
        VERKEY ++ v.data ++ '"' :: after) ∧
    util_update_ver "2.0.0" demoManifest = demoManifestBumped := by
  refine ⟨?_, ?_, by decide⟩
  · have hfuse : ∀ c : List (List Char),
        util_update_ver v c = c.map (upverLine v.data) := by
      intro c
      unfold util_update_ver
      rw [List.map_map]
      rfl
    simp only [hfuse]
    induction content with
    | nil => rfl
    | cons l ls ih =>
      simp only [List.map_cons]
      rw [upverLine_idem hq hs, ih]
  · intro g2 after hg
    unfold upverLine
    have h1 : sub1Line v.data (VERKEY ++ g2 ++ '"' :: after) =
        VERKEY ++ v.data ++ '"' :: after := by
      have htr := @tryMatch_rewrite v.data g2 after hg
      simp only [List.append_assoc] at htr
      simp [sub1Line, htr]
    rw [h1]
    exact sub2Line_id_of_not_autd (isPrefixOf_false_of_head (by decide))

/-- C8 witness: the target version 2.0.0 meets the side conditions; applying
the bump twice to the demonstration manifest changes nothing after the first
application, which itself produces the expected 2.0.0 fields. -/
theorem upver_idempotent_witness :
    util_update_ver "2.0.0" (util_update_ver "2.0.0" demoManifest) =
      util_update_ver "2.0.0" demoManifest ∧
    util_update_ver "2.0.0" demoManifest = demoManifestBumped :=
  ⟨(upver_idempotent "2.0.0" demoManifest (by decide) (by decide)).1,
   (upver_idempotent "2.0.0" demoManifest (by decide) (by decide)).2.2⟩
